import Mathlib

/-!
Verification of the QR-code spatial-marker-tracking poll state machine
(`alvr/client_openxr/src/extra_extensions/spatial_marker_tracking.rs`).

The OpenXR runtime is modelled as an oracle (`Runtime`) providing, for one
`poll` invocation, the return code and output of every runtime call the
source makes.  Opaque handles (futures, snapshots, entity ids, entity
handles, buffer ids) are modelled as natural numbers; `Posef` values are
carried opaquely as integers, since `poll` only copies them.  Fixed-capacity
native arrays are modelled as total functions `Nat → α` together with the
capacity constant `MAX_MARKERS_COUNT`; every array read performed by the
per-entity loop goes through `readRow`, which returns `none` (a Rust
index-out-of-bounds panic) when the index reaches the capacity.
`Instant`/`Duration` are modelled as abstract `Nat` time units.
-/

namespace SpatialMarkerTracking

/-- Opaque 64-bit entity id assigned by the runtime (`sys::SpatialEntityIdEXT`). -/
abbrev EntityId := Nat

/-- Opaque persistent entity handle (`sys::SpatialEntityEXT`). -/
abbrev EntityHandle := Nat

/-- Opaque buffer id (`sys::SpatialBufferIdEXT`); `0` models `NULL`. -/
abbrev BufferId := Nat

/-- Opaque snapshot handle (`sys::SpatialSnapshotEXT`). -/
abbrev Snapshot := Nat

/-- Opaque future handle (`sys::FutureEXT`). -/
abbrev Future := Nat

/-- Opaque spatial context handle (`sys::SpatialContextEXT`). -/
abbrev ContextHandle := Nat

/-- A `Posef` value, carried opaquely: `poll` only copies poses, never
inspects them. -/
abbrev Pose := Int

/-- An `xr::Result` code; `0` is `XR_SUCCESS`, non-zero models non-success. -/
abbrev XrCode := Int

/-- `sys::Result::SUCCESS`. -/
def SUCCESS : XrCode := 0

/-- Stand-in value for `sys::Result::ERROR_SPATIAL_BUFFER_ID_INVALID_EXT`,
the code the source maps a UTF-8 decode failure to (line 355). -/
def ERROR_SPATIAL_BUFFER_ID_INVALID_EXT : XrCode := -1000741001

/-- `sys::SpatialBufferIdEXT::NULL`. -/
def NULL_BUFFER_ID : BufferId := 0

/-- `SPATIAL_CAPABILITY = sys::SpatialCapabilityEXT::MARKER_TRACKING_QR_CODE`,
modelled as an abstract tag; rows produced by the oracle may carry any tag. -/
def SPATIAL_CAPABILITY : Nat := 1

/-- `const MAX_MARKERS_COUNT: usize = 32`. -/
def MAX_MARKERS_COUNT : Nat := 32

/-- `const DISCOVERY_TIMEOUT: Duration = Duration::from_secs(1)`, in abstract
time units. -/
def DISCOVERY_TIMEOUT : Nat := 1

/-- `sys::SpatialBufferTypeEXT`; the source only distinguishes `STRING`. -/
inductive SpatialBufferType where
  | string
  | other
deriving DecidableEq

/-- `sys::SpatialEntityTrackingStateEXT`; the source only distinguishes
`TRACKING`. -/
inductive SpatialEntityTrackingState where
  | tracking
  | paused
  | stopped
deriving DecidableEq

/-- `sys::SpatialMarkerDataEXT`, restricted to the fields the source reads:
`capability`, `data.buffer_id` and `data.buffer_type` (`marker_id` is never
read). -/
structure SpatialMarkerData where
  capability : Nat
  buffer_id : BufferId
  buffer_type : SpatialBufferType
deriving DecidableEq

/-- One slot of the four parallel query buffers at a common index:
`entity_ids[idx]`, `entity_states[idx]`, `marker_arr[idx]`,
`bounded_2d_arr[idx].center`. -/
structure Row where
  entity_id : EntityId
  entity_state : SpatialEntityTrackingState
  marker : SpatialMarkerData
  pose : Pose
deriving DecidableEq

/-- The entity cache `spatial_entities: HashMap<SpatialEntityIdEXT, (String,
SpatialEntityEXT)>`, modelled as an association list.  The source only ever
inserts keys that are absent, so cons-insertion coincides with `HashMap`
insertion. -/
abbrev Cache := List (EntityId × String × EntityHandle)

/-- `spatial_entities.get(&id)`. -/
def cacheLookup (id : EntityId) : Cache → Option (String × EntityHandle)
  | [] => none
  | (i, v) :: rest => if i = id then some v else cacheLookup id rest

/-- The per-entity validation of lines 310-317: the entity is skipped when
its tracking state is not `TRACKING`, or its capability is not
`SPATIAL_CAPABILITY`, or its buffer id is `NULL`, or its buffer type is not
`STRING`. -/
def markerInvalid (r : Row) : Prop :=
  r.entity_state ≠ SpatialEntityTrackingState.tracking ∨
  r.marker.capability ≠ SPATIAL_CAPABILITY ∨
  r.marker.buffer_id = NULL_BUFFER_ID ∨
  r.marker.buffer_type ≠ SpatialBufferType.string

instance (r : Row) : Decidable (markerInvalid r) := by
  unfold markerInvalid; infer_instance

/-- The configuration and runtime calls consumed by the per-entity loop:
the allow-set `codes_to_track` (a `HashSet<String>`, modelled as a list),
`get_spatial_buffer_string` followed by UTF-8 decoding (`none` payload
models invalid UTF-8), and `create_spatial_entity_from_id`. -/
structure LoopEnv where
  codes_to_track : List String
  get_buffer : BufferId → XrCode × Option String
  entity_from_id : EntityId → XrCode × EntityHandle

/-- One iteration of the per-entity loop (lines 309-384).  Returns the
optional `(label, pose)` pair pushed to `out_markers`, the cache after this
iteration, and the list of entity ids for which a buffer fetch was
attempted (`get_spatial_buffer_string`), recorded even when the iteration
aborts the poll.  `Except.error` models an early `?`-return; the cache is
unchanged on those paths since the insert happens only after every runtime
call of the iteration succeeded. -/
def processRow (env : LoopEnv) (cache : Cache) (row : Row) :
    Except XrCode (Option (String × Pose) × Cache) × List EntityId :=
  if markerInvalid row then
    -- lines 310-326: diagnostic logged, `continue`
    (Except.ok (none, cache), [])
  else
    match cacheLookup row.entity_id cache with
    | some (s, _) =>
      -- lines 330-334: cached label reused, no buffer fetch
      (Except.ok (some (s, row.pose), cache), [])
    | none =>
      -- lines 336-351: fetch the label payload
      if (env.get_buffer row.marker.buffer_id).1 = SUCCESS then
        match (env.get_buffer row.marker.buffer_id).2 with
        | none =>
          -- lines 353-356: invalid UTF-8 aborts the poll call
          (Except.error ERROR_SPATIAL_BUFFER_ID_INVALID_EXT, [row.entity_id])
        | some s =>
          if env.codes_to_track = [] ∨ s ∈ env.codes_to_track then
            -- lines 358-377: create a persistent reference and cache it
            if (env.entity_from_id row.entity_id).1 = SUCCESS then
              (Except.ok (some (s, row.pose),
                (row.entity_id, s, (env.entity_from_id row.entity_id).2) :: cache),
                [row.entity_id])
            else
              (Except.error (env.entity_from_id row.entity_id).1, [row.entity_id])
          else
            -- label filtered out: not cached, but line 383 still pushes it
            (Except.ok (some (s, row.pose), cache), [row.entity_id])
      else
        (Except.error (env.get_buffer row.marker.buffer_id).1, [row.entity_id])

/-- The whole per-entity loop (lines 308-384) over the extracted rows.
Returns the `out_markers` list (or the aborting error code), the final
cache, and all buffer-fetch attempts.  On an aborting error the cache and
fetch log reflect the iterations already executed, matching the `&mut self`
mutations that persist across an early `?`-return. -/
def processRows (env : LoopEnv) (cache : Cache) :
    List Row → Except XrCode (List (String × Pose)) × Cache × List EntityId
  | [] => (Except.ok [], cache, [])
  | row :: rest =>
    match processRow env cache row with
    | (Except.error e, fetched) => (Except.error e, cache, fetched)
    | (Except.ok (outOpt, cache1), fetched) =>
      match processRows env cache1 rest with
      | (Except.error e, cache2, fetched2) => (Except.error e, cache2, fetched ++ fetched2)
      | (Except.ok outs, cache2, fetched2) =>
        (Except.ok (match outOpt with | some o => o :: outs | none => outs),
          cache2, fetched ++ fetched2)

/-- `struct SpatialContextReadyData`.  The four fixed `[_; MAX_MARKERS_COUNT]`
arrays are modelled as total functions paired with the capacity constant;
`string_buffer` is absorbed into the buffer-fetch oracle, since it is
overwritten by every fetch and read back immediately. -/
structure SpatialContextReadyData where
  handle : ContextHandle
  discovery_snapshot_future : Option Future
  spatial_entities : Cache
  entity_ids : Nat → EntityId
  entity_states : Nat → SpatialEntityTrackingState
  bounded_2d_arr : Nat → Pose
  marker_arr : Nat → SpatialMarkerData

/-- `enum SpatialContextState`. -/
inductive SpatialContextState where
  | creating (future : Future)
  | ready (data : SpatialContextReadyData)

/-- `struct QRCodesSpatialContext`, restricted to the fields `poll` reads
(the session handle, the extension function table and `enabled_components`
are fixed handles passed through to the runtime oracle). -/
structure QRCodesSpatialContext where
  codes_to_track : List String
  context_state : SpatialContextState
  discovery_timeout_deadline : Nat

/-- The runtime oracle: return codes and outputs of every runtime call one
`poll` invocation can make.  The two `query_spatial_component_data` calls
are issued against the same immutable point-in-time snapshot with the same
query condition, so they report the same entities; only their return codes
are modelled separately.  `update_snapshot_code` is the return code of
`create_spatial_update_snapshot`, which the source discards. -/
structure Runtime where
  check_create_future : Except XrCode Bool
  create_context_complete_code : XrCode
  create_context_future_result : XrCode
  created_context : ContextHandle
  check_discovery_future : Except XrCode Bool
  discovery_complete_code : XrCode
  discovery_future_result : XrCode
  discovery_snapshot : Snapshot
  discovery_async_code : XrCode
  discovery_future : Future
  update_snapshot_code : XrCode
  update_snapshot : Snapshot
  query1_code : XrCode
  query_count : Nat
  query_ids : Nat → EntityId
  query_states : Nat → SpatialEntityTrackingState
  query2_code : XrCode
  query_bounds : Nat → Pose
  query_markers : Nat → SpatialMarkerData
  get_buffer : BufferId → XrCode × Option String
  entity_from_id : EntityId → XrCode × EntityHandle
  destroy_snapshot_code : XrCode

/-- Observable effects of one `poll` invocation: the snapshot handle the
cycle obtained (if it reached line 258), every `destroy_spatial_snapshot`
call, whether `create_spatial_discovery_snapshot_async` was called, and
every buffer-fetch attempt. -/
structure PollLog where
  obtained_snapshot : Option Snapshot
  destroyed_snapshots : List Snapshot
  discovery_issued : Bool
  fetched_ids : List EntityId

/-- The log of a poll that made none of the logged calls. -/
def emptyLog : PollLog :=
  { obtained_snapshot := none
    destroyed_snapshots := []
    discovery_issued := false
    fetched_ids := [] }

/-- Overwrite the first `n` slots of a fixed array with freshly produced
values (a runtime call writing its outputs into a caller buffer). -/
def writeSlots {α : Type} (old src : Nat → α) (n : Nat) : Nat → α :=
  fun i => if i < n then src i else old i

/-- One read of the four parallel arrays at `idx` by the per-entity loop.
Rust array indexing is bounds-checked: an index at or beyond the capacity
`MAX_MARKERS_COUNT` panics, modelled as `none`. -/
def readRow (data : SpatialContextReadyData) (idx : Nat) : Option Row :=
  if idx < MAX_MARKERS_COUNT then
    some { entity_id := data.entity_ids idx
           entity_state := data.entity_states idx
           marker := data.marker_arr idx
           pose := data.bounded_2d_arr idx }
  else
    none

/-- Reads at every index of a list, failing if any read panics. -/
def readRowsAux (data : SpatialContextReadyData) : List Nat → Option (List Row)
  | [] => some []
  | idx :: rest =>
    match readRow data idx, readRowsAux data rest with
    | some row, some rows => some (row :: rows)
    | _, _ => none

/-- The reads of `for idx in 0..query_result.entity_id_count_output`
(line 309): indices `0, …, count-1` of the four fixed buffers, with no
clamp against the buffer capacity. -/
def readRows (data : SpatialContextReadyData) (count : Nat) : Option (List Row) :=
  readRowsAux data (List.range count)

/-- The discovery phase of `poll` (lines 162-222): complete a ready
outstanding discovery future, or, when none is outstanding and the deadline
has passed, issue a new discovery request and advance the deadline by
`DISCOVERY_TIMEOUT` from now.  Returns the optional discovery snapshot (or
the aborting error), the ready-state data, the deadline, and whether the
async discovery request call was made.  The outstanding future is cleared
(line 166) before the completion call, so it stays cleared even when the
completion fails. -/
def discoveryPhase (env : Runtime) (data : SpatialContextReadyData)
    (deadline now : Nat) :
    Except XrCode (Option Snapshot) × SpatialContextReadyData × Nat × Bool :=
  match data.discovery_snapshot_future with
  | some _future =>
    match env.check_discovery_future with
    | Except.error e => (Except.error e, data, deadline, false)
    | Except.ok true =>
      let data := { data with discovery_snapshot_future := none }
      if env.discovery_complete_code ≠ SUCCESS then
        (Except.error env.discovery_complete_code, data, deadline, false)
      else if env.discovery_future_result ≠ SUCCESS then
        (Except.error env.discovery_future_result, data, deadline, false)
      else
        (Except.ok (some env.discovery_snapshot), data, deadline, false)
    | Except.ok false => (Except.ok none, data, deadline, false)
  | none =>
    if now > deadline then
      if env.discovery_async_code ≠ SUCCESS then
        (Except.error env.discovery_async_code, data, deadline, true)
      else
        (Except.ok none,
          { data with discovery_snapshot_future := some env.discovery_future },
          now + DISCOVERY_TIMEOUT, true)
    else
      (Except.ok none, data, deadline, false)

/-- The phase-1 query call (lines 265-281): the runtime fills the entity-id
and tracking-state arrays up to their capacity `MAX_MARKERS_COUNT`. -/
def afterQuery1 (env : Runtime) (data : SpatialContextReadyData) :
    SpatialContextReadyData :=
  { data with
    entity_ids :=
      writeSlots data.entity_ids env.query_ids (min env.query_count MAX_MARKERS_COUNT)
    entity_states :=
      writeSlots data.entity_states env.query_states
        (min env.query_count MAX_MARKERS_COUNT) }

/-- The phase-2 query call (lines 284-306): the runtime fills the chained
2D-bound and marker component lists. -/
def afterQuery2 (env : Runtime) (data : SpatialContextReadyData) :
    SpatialContextReadyData :=
  { data with
    bounded_2d_arr :=
      writeSlots data.bounded_2d_arr env.query_bounds
        (min env.query_count MAX_MARKERS_COUNT)
    marker_arr :=
      writeSlots data.marker_arr env.query_markers
        (min env.query_count MAX_MARKERS_COUNT) }

/-- The ready-state data once both query phases wrote their outputs. -/
def queriedData (env : Runtime) (data : SpatialContextReadyData) :
    SpatialContextReadyData :=
  afterQuery2 env (afterQuery1 env data)

/-- The loop configuration `poll` passes to the per-entity loop. -/
def loopEnvOf (env : Runtime) (codes : List String) : LoopEnv :=
  { codes_to_track := codes
    get_buffer := env.get_buffer
    entity_from_id := env.entity_from_id }

/-- The remainder of `poll` once a snapshot handle is in hand (lines
258-392): run the two-phase component query into the fixed buffers, run the
per-entity loop, and destroy the snapshot on the final success path only —
every earlier `?`-return skips the destroy call, as the source does. -/
def afterSnapshot (env : Runtime) (codes : List String)
    (data : SpatialContextReadyData) (deadline : Nat) (issued : Bool)
    (snapshot : Snapshot) :
    Option (Except XrCode (Option (List (String × Pose))) ×
      QRCodesSpatialContext × PollLog) :=
  if env.query1_code ≠ SUCCESS then
    some (Except.error env.query1_code,
      { codes_to_track := codes
        context_state := SpatialContextState.ready data
        discovery_timeout_deadline := deadline },
      { obtained_snapshot := some snapshot
        destroyed_snapshots := []
        discovery_issued := issued
        fetched_ids := [] })
  else if env.query2_code ≠ SUCCESS then
    some (Except.error env.query2_code,
      { codes_to_track := codes
        context_state := SpatialContextState.ready (afterQuery1 env data)
        discovery_timeout_deadline := deadline },
      { obtained_snapshot := some snapshot
        destroyed_snapshots := []
        discovery_issued := issued
        fetched_ids := [] })
  else
    match readRows (queriedData env data) env.query_count with
    | none => none
    | some rows =>
      match processRows (loopEnvOf env codes)
          (queriedData env data).spatial_entities rows with
      | (Except.error e, cache1, fetched) =>
        some (Except.error e,
          { codes_to_track := codes
            context_state := SpatialContextState.ready
              { queriedData env data with spatial_entities := cache1 }
            discovery_timeout_deadline := deadline },
          { obtained_snapshot := some snapshot
            destroyed_snapshots := []
            discovery_issued := issued
            fetched_ids := fetched })
      | (Except.ok out, cache1, fetched) =>
        if env.destroy_snapshot_code ≠ SUCCESS then
          some (Except.error env.destroy_snapshot_code,
            { codes_to_track := codes
              context_state := SpatialContextState.ready
                { queriedData env data with spatial_entities := cache1 }
              discovery_timeout_deadline := deadline },
            { obtained_snapshot := some snapshot
              destroyed_snapshots := [snapshot]
              discovery_issued := issued
              fetched_ids := fetched })
        else
          some (Except.ok (some out),
            { codes_to_track := codes
              context_state := SpatialContextState.ready
                { queriedData env data with spatial_entities := cache1 }
              discovery_timeout_deadline := deadline },
            { obtained_snapshot := some snapshot
              destroyed_snapshots := [snapshot]
              discovery_issued := issued
              fetched_ids := fetched })

/-- The `Ready`-state body of `poll`.  When discovery produced no snapshot,
`create_spatial_update_snapshot` provides one synchronously (lines
224-256); the source discards that call's return code. -/
def pollReady (env : Runtime) (codes : List String)
    (data : SpatialContextReadyData) (deadline now : Nat) :
    Option (Except XrCode (Option (List (String × Pose))) ×
      QRCodesSpatialContext × PollLog) :=
  match discoveryPhase env data deadline now with
  | (Except.error e, data1, deadline1, issued) =>
    some (Except.error e,
      { codes_to_track := codes
        context_state := SpatialContextState.ready data1
        discovery_timeout_deadline := deadline1 },
      { obtained_snapshot := none
        destroyed_snapshots := []
        discovery_issued := issued
        fetched_ids := [] })
  | (Except.ok snapOpt, data1, deadline1, issued) =>
    afterSnapshot env codes data1 deadline1 issued
      (match snapOpt with
       | some handle => handle
       | none => env.update_snapshot)

/-- The `Ready` state built on the transition frame (lines 133-154):
empty cache, no outstanding discovery future, zero-initialized buffers. -/
def initialReadyData (handle : ContextHandle) : SpatialContextReadyData :=
  { handle := handle
    discovery_snapshot_future := none
    spatial_entities := []
    entity_ids := fun _ => 0
    entity_states := fun _ => SpatialEntityTrackingState.stopped
    bounded_2d_arr := fun _ => 0
    marker_arr := fun _ =>
      { capability := SPATIAL_CAPABILITY
        buffer_id := NULL_BUFFER_ID
        buffer_type := SpatialBufferType.string } }

/-- `QRCodesSpatialContext::poll`.  The result is `none` on a Rust panic
(out-of-bounds buffer index); otherwise it carries the `xr::Result` of the
call (`Except.error` for a non-success code surfaced via `xr_res(..)?` —
modelled from the spec: any runtime call returning a non-success code
aborts the poll with that code — and `Except.ok` with `none` for "no data
yet" or `some list` for a result list), the context after the call, and the
observable-effect log. -/
def poll (env : Runtime) (now : Nat) (ctx : QRCodesSpatialContext) :
    Option (Except XrCode (Option (List (String × Pose))) ×
      QRCodesSpatialContext × PollLog) :=
  match ctx.context_state with
  | SpatialContextState.creating _future =>
    match env.check_create_future with
    | Except.error e => some (Except.error e, ctx, emptyLog)
    | Except.ok false => some (Except.ok none, ctx, emptyLog)
    | Except.ok true =>
      if env.create_context_complete_code ≠ SUCCESS then
        some (Except.error env.create_context_complete_code, ctx, emptyLog)
      else if env.create_context_future_result ≠ SUCCESS then
        some (Except.error env.create_context_future_result, ctx, emptyLog)
      else
        some (Except.ok none,
          { codes_to_track := ctx.codes_to_track
            context_state :=
              SpatialContextState.ready (initialReadyData env.created_context)
            discovery_timeout_deadline := ctx.discovery_timeout_deadline },
          emptyLog)
  | SpatialContextState.ready data =>
    pollReady env ctx.codes_to_track data ctx.discovery_timeout_deadline now

/-- The entity cache held by a context (`[]` while still creating). -/
def cacheOf (ctx : QRCodesSpatialContext) : Cache :=
  match ctx.context_state with
  | SpatialContextState.creating _ => []
  | SpatialContextState.ready data => data.spatial_entities

/-- The outstanding discovery future of a context. -/
def futureOf (ctx : QRCodesSpatialContext) : Option Future :=
  match ctx.context_state with
  | SpatialContextState.creating _ => none
  | SpatialContextState.ready data => data.discovery_snapshot_future

/-- The label filter of lines 358-377: accept when the allow-set is empty or
contains the label. -/
def allowOk (codes : List String) (s : String) : Prop :=
  codes = [] ∨ s ∈ codes

instance (codes : List String) (s : String) : Decidable (allowOk codes s) := by
  unfold allowOk; infer_instance

theorem cacheLookup_cons (id i : EntityId) (v : String × EntityHandle) (c : Cache) :
    cacheLookup id ((i, v) :: c) = if i = id then some v else cacheLookup id c := rfl

/-- Shape of the cache after one successful loop iteration: unchanged, or a
single new entry for this row's entity id, inserted only when the id was
absent, the label was decoded from this row's buffer, and the label passed
the allow-set filter. -/
theorem processRow_cache_shape (env : LoopEnv) (cache : Cache) (row : Row)
    (o : Option (String × Pose)) (cache1 : Cache) (f : List EntityId)
    (h : processRow env cache row = (Except.ok (o, cache1), f)) :
    cache1 = cache ∨
    ∃ s hd, cache1 = (row.entity_id, s, hd) :: cache ∧
      cacheLookup row.entity_id cache = none ∧
      allowOk env.codes_to_track s ∧
      (env.get_buffer row.marker.buffer_id).2 = some s := by
  unfold processRow at h
  split at h
  · simp only [Prod.mk.injEq, Except.ok.injEq] at h
    exact Or.inl h.1.2.symm
  · split at h
    next s hd heq =>
      simp only [Prod.mk.injEq, Except.ok.injEq] at h
      exact Or.inl h.1.2.symm
    next heq =>
      split at h
      · split at h
        · simp at h
        · next s hpay =>
          split at h
          next hallow =>
            split at h
            · simp only [Prod.mk.injEq, Except.ok.injEq] at h
              exact Or.inr ⟨s, (env.entity_from_id row.entity_id).2,
                h.1.2.symm, heq, hallow, hpay⟩
            · simp at h
          · simp only [Prod.mk.injEq, Except.ok.injEq] at h
            exact Or.inl h.1.2.symm
      · simp at h

/-- Shape of the buffer-fetch log of one loop iteration: empty, or exactly
this row's entity id, fetched only when the id was absent from the cache
and the row passed validation. -/
theorem processRow_fetch_shape (env : LoopEnv) (cache : Cache) (row : Row)
    (r : Except XrCode (Option (String × Pose) × Cache)) (f : List EntityId)
    (h : processRow env cache row = (r, f)) :
    f = [] ∨
    (f = [row.entity_id] ∧ cacheLookup row.entity_id cache = none ∧
      ¬ markerInvalid row) := by
  unfold processRow at h
  split at h
  next hinv =>
    simp only [Prod.mk.injEq] at h
    exact Or.inl h.2.symm
  next hinv =>
    split at h
    next =>
      simp only [Prod.mk.injEq] at h
      exact Or.inl h.2.symm
    next heq =>
      split at h
      · split at h
        · simp only [Prod.mk.injEq] at h
          exact Or.inr ⟨h.2.symm, heq, hinv⟩
        · split at h
          · split at h
            · simp only [Prod.mk.injEq] at h
              exact Or.inr ⟨h.2.symm, heq, hinv⟩
            · simp only [Prod.mk.injEq] at h
              exact Or.inr ⟨h.2.symm, heq, hinv⟩
          · simp only [Prod.mk.injEq] at h
            exact Or.inr ⟨h.2.symm, heq, hinv⟩
      · simp only [Prod.mk.injEq] at h
        exact Or.inr ⟨h.2.symm, heq, hinv⟩

/-- Every label pushed by one loop iteration is either a cached label of
this row's entity id or the decode of this row's buffer payload. -/
theorem processRow_output_shape (env : LoopEnv) (cache : Cache) (row : Row)
    (l : String) (p : Pose) (cache1 : Cache) (f : List EntityId)
    (h : processRow env cache row = (Except.ok (some (l, p), cache1), f)) :
    (∃ hd, cacheLookup row.entity_id cache = some (l, hd)) ∨
    (env.get_buffer row.marker.buffer_id).2 = some l := by
  unfold processRow at h
  split at h
  · simp at h
  · split at h
    next s hd heq =>
      simp only [Prod.mk.injEq, Except.ok.injEq, Option.some.injEq] at h
      exact Or.inl ⟨hd, h.1.1.1 ▸ heq⟩
    next heq =>
      split at h
      · split at h
        · simp at h
        · next s hpay =>
          split at h
          · split at h
            · simp only [Prod.mk.injEq, Except.ok.injEq, Option.some.injEq] at h
              exact Or.inr (h.1.1.1 ▸ hpay)
            · simp at h
          · simp only [Prod.mk.injEq, Except.ok.injEq, Option.some.injEq] at h
            exact Or.inr (h.1.1.1 ▸ hpay)
      · simp at h

/-- Lines 310-326: an invalid row is skipped, leaving the cache untouched,
with no buffer fetch and no output. -/
theorem processRow_invalid (env : LoopEnv) (cache : Cache) (row : Row)
    (h : markerInvalid row) :
    processRow env cache row = (Except.ok (none, cache), []) := by
  unfold processRow
  simp [h]

/-- Lines 330-334: a valid row whose entity id is cached reuses the stored
label with no buffer fetch. -/
theorem processRow_cached (env : LoopEnv) (cache : Cache) (row : Row)
    (s : String) (hd : EntityHandle) (h : ¬ markerInvalid row)
    (hc : cacheLookup row.entity_id cache = some (s, hd)) :
    processRow env cache row = (Except.ok (some (s, row.pose), cache), []) := by
  unfold processRow
  simp [h, hc]

/-- One successful loop iteration never drops or overwrites a cache entry. -/
theorem processRow_lookup_mono (env : LoopEnv) (cache : Cache) (row : Row)
    (o : Option (String × Pose)) (cache1 : Cache) (f : List EntityId)
    (h : processRow env cache row = (Except.ok (o, cache1), f))
    (id : EntityId) (v : String × EntityHandle)
    (hv : cacheLookup id cache = some v) : cacheLookup id cache1 = some v := by
  rcases processRow_cache_shape env cache row o cache1 f h with hc | ⟨s, hd, hc, hnone, -, -⟩
  · exact hc ▸ hv
  · subst hc
    rw [cacheLookup_cons]
    split
    next heq =>
      rw [heq] at hnone
      rw [hnone] at hv
      exact Option.noConfusion hv
    next => exact hv

/-- One successful loop iteration does not create entries for other ids. -/
theorem processRow_lookup_other (env : LoopEnv) (cache : Cache) (row : Row)
    (o : Option (String × Pose)) (cache1 : Cache) (f : List EntityId)
    (h : processRow env cache row = (Except.ok (o, cache1), f))
    (id : EntityId) (hid : id ≠ row.entity_id) :
    cacheLookup id cache1 = cacheLookup id cache := by
  rcases processRow_cache_shape env cache row o cache1 f h with hc | ⟨s, hd, hc, -, -, -⟩
  · exact hc ▸ rfl
  · subst hc
    rw [cacheLookup_cons]
    split
    next heq => exact absurd heq.symm hid
    next => rfl

/-- The whole loop never drops or overwrites a cache entry: every `(label,
reference)` pair present before the loop is still its id's binding after
the loop, on success and on abort alike. -/
theorem processRows_lookup_mono (env : LoopEnv) (rows : List Row)
    (cache : Cache) (res : Except XrCode (List (String × Pose)))
    (cache' : Cache) (f : List EntityId)
    (h : processRows env cache rows = (res, cache', f))
    (id : EntityId) (v : String × EntityHandle)
    (hv : cacheLookup id cache = some v) : cacheLookup id cache' = some v := by
  induction rows generalizing cache res cache' f with
  | nil =>
    unfold processRows at h
    simp only [Prod.mk.injEq] at h
    exact h.2.1 ▸ hv
  | cons row rest ih =>
    unfold processRows at h
    split at h
    next e fetched hrow =>
      simp only [Prod.mk.injEq] at h
      exact h.2.1 ▸ hv
    next outOpt cache1 fetched hrow =>
      have step := processRow_lookup_mono env cache row outOpt cache1 fetched hrow id v hv
      split at h
      next e cache2 f2 hrest =>
        simp only [Prod.mk.injEq] at h
        exact h.2.1 ▸ ih cache1 (Except.error e) cache2 f2 hrest step
      next outs cache2 f2 hrest =>
        simp only [Prod.mk.injEq] at h
        exact h.2.1 ▸ ih cache1 (Except.ok outs) cache2 f2 hrest step

/-- Provenance of cache entries: after a loop run, every binding either was
already present or is an allow-set-passing label decoded from the buffer of
one of the processed rows. -/
theorem processRows_new_entry (env : LoopEnv) (rows : List Row)
    (cache : Cache) (res : Except XrCode (List (String × Pose)))
    (cache' : Cache) (f : List EntityId)
    (h : processRows env cache rows = (res, cache', f))
    (id : EntityId) (s : String) (hd : EntityHandle)
    (hl : cacheLookup id cache' = some (s, hd)) :
    cacheLookup id cache = some (s, hd) ∨
    (allowOk env.codes_to_track s ∧
      ∃ r ∈ rows, (env.get_buffer r.marker.buffer_id).2 = some s) := by
  induction rows generalizing cache res cache' f with
  | nil =>
    unfold processRows at h
    simp only [Prod.mk.injEq] at h
    exact Or.inl (h.2.1 ▸ hl)
  | cons row rest ih =>
    unfold processRows at h
    split at h
    next e fetched hrow =>
      simp only [Prod.mk.injEq] at h
      exact Or.inl (h.2.1 ▸ hl)
    next outOpt cache1 fetched hrow =>
      have hrest : ∃ res2 f2, processRows env cache1 rest = (res2, cache', f2) := by
        split at h
        next e cache2 f2 hr =>
          simp only [Prod.mk.injEq] at h
          exact ⟨Except.error e, f2, h.2.1 ▸ hr⟩
        next outs cache2 f2 hr =>
          simp only [Prod.mk.injEq] at h
          exact ⟨Except.ok outs, f2, h.2.1 ▸ hr⟩
      obtain ⟨res2, f2, hr⟩ := hrest
      rcases ih cache1 res2 cache' f2 hr hl with h1 | ⟨ha, r, hrmem, hrs⟩
      · rcases processRow_cache_shape env cache row outOpt cache1 fetched hrow with
          hc | ⟨s2, hd2, hc, hnone, ha2, hs2⟩
        · exact Or.inl (hc ▸ h1)
        · subst hc
          rw [cacheLookup_cons] at h1
          split at h1
          next heq =>
            simp only [Option.some.injEq, Prod.mk.injEq] at h1
            exact Or.inr ⟨h1.1 ▸ ha2, row, List.mem_cons_self row rest,
              h1.1 ▸ hs2⟩
          next => exact Or.inl h1
      · exact Or.inr ⟨ha, r, List.mem_cons_of_mem row hrmem, hrs⟩

/-- Ids that occur in none of the processed rows keep exactly their prior
cache binding (present or absent). -/
theorem processRows_untouched (env : LoopEnv) (rows : List Row)
    (cache : Cache) (res : Except XrCode (List (String × Pose)))
    (cache' : Cache) (f : List EntityId)
    (h : processRows env cache rows = (res, cache', f))
    (id : EntityId) (hid : id ∉ rows.map Row.entity_id) :
    cacheLookup id cache' = cacheLookup id cache := by
  induction rows generalizing cache res cache' f with
  | nil =>
    unfold processRows at h
    simp only [Prod.mk.injEq] at h
    rw [h.2.1]
  | cons row rest ih =>
    simp only [List.map_cons, List.mem_cons, not_or] at hid
    unfold processRows at h
    split at h
    next e fetched hrow =>
      simp only [Prod.mk.injEq] at h
      rw [h.2.1]
    next outOpt cache1 fetched hrow =>
      have step := processRow_lookup_other env cache row outOpt cache1 fetched
        hrow id hid.1
      split at h
      next e cache2 f2 hr =>
        simp only [Prod.mk.injEq] at h
        rw [← h.2.1, ih cache1 (Except.error e) cache2 f2 hr
          (by simpa using hid.2), step]
      next outs cache2 f2 hr =>
        simp only [Prod.mk.injEq] at h
        rw [← h.2.1, ih cache1 (Except.ok outs) cache2 f2 hr
          (by simpa using hid.2), step]

/-- An id with a cache entry before the loop is never fetched by the loop. -/
theorem processRows_no_fetch_of_cached (env : LoopEnv) (rows : List Row)
    (cache : Cache) (res : Except XrCode (List (String × Pose)))
    (cache' : Cache) (f : List EntityId)
    (h : processRows env cache rows = (res, cache', f))
    (id : EntityId) (v : String × EntityHandle)
    (hv : cacheLookup id cache = some v) : id ∉ f := by
  induction rows generalizing cache res cache' f with
  | nil =>
    unfold processRows at h
    simp only [Prod.mk.injEq] at h
    simp [← h.2.2]
  | cons row rest ih =>
    have hstep : ∀ r2 f2, processRow env cache row = (r2, f2) → id ∉ f2 := by
      intro r2 f2 hrow
      rcases processRow_fetch_shape env cache row r2 f2 hrow with
        rfl | ⟨rfl, hnone, -⟩
      · simp
      · simp only [List.mem_singleton]
        intro heq
        rw [heq] at hv
        rw [hnone] at hv
        exact Option.noConfusion hv
    unfold processRows at h
    split at h
    next e fetched hrow =>
      simp only [Prod.mk.injEq] at h
      exact h.2.2 ▸ hstep (Except.error e) fetched hrow
    next outOpt cache1 fetched hrow =>
      have hv1 := processRow_lookup_mono env cache row outOpt cache1 fetched
        hrow id v hv
      split at h
      next e cache2 f2 hr =>
        simp only [Prod.mk.injEq] at h
        rw [← h.2.2]
        simp only [List.mem_append, not_or]
        exact ⟨hstep _ fetched hrow, ih cache1 (Except.error e) cache2 f2 hr hv1⟩
      next outs cache2 f2 hr =>
        simp only [Prod.mk.injEq] at h
        rw [← h.2.2]
        simp only [List.mem_append, not_or]
        exact ⟨hstep _ fetched hrow, ih cache1 (Except.ok outs) cache2 f2 hr hv1⟩

/-- A valid, uncached row whose decoded label fails the allow-set filter:
output pushed, cache untouched. -/
theorem processRow_notallowed (env : LoopEnv) (cache : Cache) (row : Row)
    (s : String) (h : ¬ markerInvalid row)
    (hc : cacheLookup row.entity_id cache = none)
    (hgb : env.get_buffer row.marker.buffer_id = (SUCCESS, some s))
    (hna : ¬ allowOk env.codes_to_track s) :
    processRow env cache row =
      (Except.ok (some (s, row.pose), cache), [row.entity_id]) := by
  rw [allowOk] at hna
  unfold processRow
  simp [h, hc, hgb, hna]

/-- Complete case analysis of one successful loop iteration. -/
theorem processRow_ok_cases (env : LoopEnv) (cache : Cache) (row : Row)
    (outOpt : Option (String × Pose)) (cache1 : Cache) (f : List EntityId)
    (h : processRow env cache row = (Except.ok (outOpt, cache1), f)) :
    (markerInvalid row ∧ outOpt = none ∧ cache1 = cache ∧ f = []) ∨
    (¬ markerInvalid row ∧ ∃ s hd,
      cacheLookup row.entity_id cache = some (s, hd) ∧
      outOpt = some (s, row.pose) ∧ cache1 = cache ∧ f = []) ∨
    (¬ markerInvalid row ∧ cacheLookup row.entity_id cache = none ∧
      ∃ s, env.get_buffer row.marker.buffer_id = (SUCCESS, some s) ∧
        f = [row.entity_id] ∧ outOpt = some (s, row.pose) ∧
        ((allowOk env.codes_to_track s ∧
            (env.entity_from_id row.entity_id).1 = SUCCESS ∧
            cache1 =
              (row.entity_id, s, (env.entity_from_id row.entity_id).2) :: cache) ∨
          (¬ allowOk env.codes_to_track s ∧ cache1 = cache))) := by
  unfold processRow at h
  split at h
  next hinv =>
    simp only [Prod.mk.injEq, Except.ok.injEq] at h
    exact Or.inl ⟨hinv, h.1.1.symm, h.1.2.symm, h.2.symm⟩
  next hinv =>
    split at h
    next s hd heq =>
      simp only [Prod.mk.injEq, Except.ok.injEq] at h
      exact Or.inr (Or.inl ⟨hinv, s, hd, heq, h.1.1.symm, h.1.2.symm, h.2.symm⟩)
    next heq =>
      split at h
      next hcode =>
        split at h
        · simp at h
        · next s hpay =>
          split at h
          next hallow =>
            split at h
            next hcode2 =>
              simp only [Prod.mk.injEq, Except.ok.injEq] at h
              exact Or.inr (Or.inr ⟨hinv, heq, s,
                Prod.ext hcode hpay, h.2.symm, h.1.1.symm,
                Or.inl ⟨hallow, hcode2, h.1.2.symm⟩⟩)
            next => simp at h
          next hallow =>
            simp only [Prod.mk.injEq, Except.ok.injEq] at h
            exact Or.inr (Or.inr ⟨hinv, heq, s,
              Prod.ext hcode hpay, h.2.symm, h.1.1.symm,
              Or.inr ⟨hallow, h.1.2.symm⟩⟩)
      · simp at h

theorem processRows_nil (env : LoopEnv) (cache : Cache) :
    processRows env cache [] = (Except.ok [], cache, []) := rfl

/-- Reassembly: a loop run over `row :: rest` from the values of its head
iteration and its tail run. -/
theorem processRows_cons_ok (env : LoopEnv) (cache : Cache) (row : Row)
    (rest : List Row) (outOpt : Option (String × Pose)) (cache1 : Cache)
    (fetched : List EntityId) (outs : List (String × Pose)) (cache2 : Cache)
    (f2 : List EntityId)
    (h1 : processRow env cache row = (Except.ok (outOpt, cache1), fetched))
    (h2 : processRows env cache1 rest = (Except.ok outs, cache2, f2)) :
    processRows env cache (row :: rest) =
      (Except.ok (match outOpt with | some o => o :: outs | none => outs),
        cache2, fetched ++ f2) := by
  simp only [processRows, h1, h2]
  cases outOpt <;> rfl

/-- The loop pushes at most one output pair per processed row. -/
theorem processRows_length (env : LoopEnv) (rows : List Row) (cache : Cache)
    (out : List (String × Pose)) (cache' : Cache) (f : List EntityId)
    (h : processRows env cache rows = (Except.ok out, cache', f)) :
    out.length ≤ rows.length := by
  induction rows generalizing cache out cache' f with
  | nil =>
    unfold processRows at h
    simp only [Prod.mk.injEq, Except.ok.injEq] at h
    simp [← h.1]
  | cons row rest ih =>
    unfold processRows at h
    split at h
    next e fetched hrow => simp at h
    next outOpt cache1 fetched hrow =>
      split at h
      next e cache2 f2 hr => simp at h
      next outs cache2 f2 hr =>
        simp only [Prod.mk.injEq, Except.ok.injEq] at h
        have hlen := ih cache1 outs cache2 f2 hr
        rw [← h.1]
        cases outOpt with
        | none => simpa using Nat.le_succ_of_le hlen
        | some o => simpa using Nat.succ_le_succ hlen

/-- Provenance of output pairs: every label in `out_markers` was either
already cached when the loop started or is the decode of some processed
row's buffer payload. -/
theorem processRows_output_provenance (env : LoopEnv) (rows : List Row)
    (cache : Cache) (out : List (String × Pose)) (cache' : Cache)
    (f : List EntityId)
    (h : processRows env cache rows = (Except.ok out, cache', f))
    (l : String) (p : Pose) (hmem : (l, p) ∈ out) :
    (∃ id hd, cacheLookup id cache = some (l, hd)) ∨
    ∃ r ∈ rows, (env.get_buffer r.marker.buffer_id).2 = some l := by
  induction rows generalizing cache out cache' f with
  | nil =>
    unfold processRows at h
    simp only [Prod.mk.injEq, Except.ok.injEq] at h
    rw [← h.1] at hmem
    exact absurd hmem (List.not_mem_nil _)
  | cons row rest ih =>
    unfold processRows at h
    split at h
    next e fetched hrow => simp at h
    next outOpt cache1 fetched hrow =>
      split at h
      next e cache2 f2 hr => simp at h
      next outs cache2 f2 hr =>
        simp only [Prod.mk.injEq, Except.ok.injEq] at h
        have hlift :
            (l, p) ∈ outs →
            (∃ id hd, cacheLookup id cache = some (l, hd)) ∨
            ∃ r ∈ row :: rest, (env.get_buffer r.marker.buffer_id).2 = some l := by
          intro hmem2
          rcases ih cache1 outs cache2 f2 hr hmem2 with ⟨id, hd, hl⟩ | ⟨r, hrmem, hrl⟩
          · rcases processRow_cache_shape env cache row outOpt cache1 fetched hrow
              with hc | ⟨s2, hd2, hc, hnone, -, hs2⟩
            · exact Or.inl ⟨id, hd, hc ▸ hl⟩
            · subst hc
              rw [cacheLookup_cons] at hl
              split at hl
              next heq =>
                simp only [Option.some.injEq, Prod.mk.injEq] at hl
                exact Or.inr ⟨row, List.mem_cons_self row rest, hl.1 ▸ hs2⟩
              next => exact Or.inl ⟨id, hd, hl⟩
          · exact Or.inr ⟨r, List.mem_cons_of_mem row hrmem, hrl⟩
        rw [← h.1] at hmem
        cases outOpt with
        | none => exact hlift hmem
        | some o =>
          rcases List.mem_cons.mp hmem with heq | hmem2
          · rw [← heq] at hrow
            rcases processRow_output_shape env cache row l p cache1 fetched
              hrow with ⟨hd, hl⟩ | hl
            · exact Or.inl ⟨row.entity_id, hd, hl⟩
            · exact Or.inr ⟨row, List.mem_cons_self row rest, hl⟩
          · exact hlift hmem2

/-- Re-running the loop on the same rows from the final cache of a
successful run reproduces the same output list and leaves the cache
unchanged, provided the rows carry pairwise-distinct entity ids. -/
theorem processRows_stable (env : LoopEnv) (rows : List Row) (cache : Cache)
    (out : List (String × Pose)) (cache' : Cache) (f : List EntityId)
    (hnodup : (rows.map Row.entity_id).Nodup)
    (h : processRows env cache rows = (Except.ok out, cache', f)) :
    ∃ f', processRows env cache' rows = (Except.ok out, cache', f') := by
  induction rows generalizing cache out cache' f with
  | nil =>
    unfold processRows at h
    simp only [Prod.mk.injEq, Except.ok.injEq] at h
    exact ⟨[], by rw [← h.1, ← h.2.1]; exact processRows_nil env cache⟩
  | cons row rest ih =>
    simp only [List.map_cons, List.nodup_cons] at hnodup
    unfold processRows at h
    split at h
    next e fetched hrow => simp at h
    next outOpt cache1 fetched hrow =>
      split at h
      next e cache2 f2 hr => simp at h
      next outs cache2 f2 hr =>
        simp only [Prod.mk.injEq, Except.ok.injEq] at h
        obtain ⟨hout, hcache, -⟩ := h
        subst hcache
        obtain ⟨f2', hr2⟩ := ih cache1 outs cache2 f2 hnodup.2 hr
        have hhead2 : ∃ f'', processRow env cache2 row =
            (Except.ok (outOpt, cache2), f'') := by
          rcases processRow_ok_cases env cache row outOpt cache1 fetched hrow with
            ⟨hinv, ho, hc, -⟩ |
            ⟨hinv, s, hd, hlk, ho, hc, -⟩ |
            ⟨hinv, hlk, s, hgb, -, ho, hrest⟩
          · exact ⟨[], ho ▸ processRow_invalid env cache2 row hinv⟩
          · have := processRows_lookup_mono env rest cache1 (Except.ok outs)
              cache2 f2 hr row.entity_id (s, hd) (hc ▸ hlk)
            exact ⟨[], ho ▸ processRow_cached env cache2 row s hd hinv this⟩
          · rcases hrest with ⟨hallow, hcode2, hc⟩ | ⟨hna, hc⟩
            · have hlk1 : cacheLookup row.entity_id cache1 =
                  some (s, (env.entity_from_id row.entity_id).2) := by
                rw [hc, cacheLookup_cons]
                simp
              have := processRows_lookup_mono env rest cache1 (Except.ok outs)
                cache2 f2 hr row.entity_id
                (s, (env.entity_from_id row.entity_id).2) hlk1
              exact ⟨[], ho ▸ processRow_cached env cache2 row s
                (env.entity_from_id row.entity_id).2 hinv this⟩
            · have hlk1 : cacheLookup row.entity_id cache2 = none := by
                rw [processRows_untouched env rest cache1 (Except.ok outs)
                  cache2 f2 hr row.entity_id hnodup.1, hc, hlk]
              exact ⟨[row.entity_id], ho ▸ processRow_notallowed env cache2 row
                s hinv hlk1 hgb hna⟩
        obtain ⟨f'', hh2⟩ := hhead2
        refine ⟨f'' ++ f2', ?_⟩
        rw [processRows_cons_ok env cache2 row rest outOpt cache2 f'' outs
          cache2 f2' hh2 hr2, ← hout]
        cases outOpt <;> rfl

theorem queriedData_spatial_entities (env : Runtime)
    (data : SpatialContextReadyData) :
    (queriedData env data).spatial_entities = data.spatial_entities := rfl

theorem queriedData_future (env : Runtime) (data : SpatialContextReadyData) :
    (queriedData env data).discovery_snapshot_future =
      data.discovery_snapshot_future := rfl

/-- What every non-panicking exit of `afterSnapshot` guarantees about the
returned context and log. -/
theorem afterSnapshot_shape (env : Runtime) (codes : List String)
    (data : SpatialContextReadyData) (deadline : Nat) (issued : Bool)
    (snapshot : Snapshot) (r : Except XrCode (Option (List (String × Pose))))
    (ctx' : QRCodesSpatialContext) (log : PollLog)
    (h : afterSnapshot env codes data deadline issued snapshot =
      some (r, ctx', log)) :
    ctx'.codes_to_track = codes ∧
    ctx'.discovery_timeout_deadline = deadline ∧
    log.discovery_issued = issued ∧
    ∃ d', ctx'.context_state = SpatialContextState.ready d' ∧
      d'.discovery_snapshot_future = data.discovery_snapshot_future ∧
      (d'.spatial_entities = data.spatial_entities ∨
        ∃ rows res f,
          processRows (loopEnvOf env codes) data.spatial_entities rows =
            (res, d'.spatial_entities, f)) := by
  unfold afterSnapshot at h
  split at h
  · simp only [Option.some.injEq, Prod.mk.injEq] at h
    obtain ⟨-, h2, h3⟩ := h
    subst h2
    subst h3
    exact ⟨rfl, rfl, rfl, data, rfl, rfl, Or.inl rfl⟩
  · split at h
    · simp only [Option.some.injEq, Prod.mk.injEq] at h
      obtain ⟨-, h2, h3⟩ := h
      subst h2
      subst h3
      exact ⟨rfl, rfl, rfl, afterQuery1 env data, rfl, rfl, Or.inl rfl⟩
    · split at h
      next => exact Option.noConfusion h
      next rows hrows =>
        split at h
        next e cache1 fetched hpr =>
          simp only [Option.some.injEq, Prod.mk.injEq] at h
          obtain ⟨-, h2, h3⟩ := h
          subst h2
          subst h3
          exact ⟨rfl, rfl, rfl, _, rfl, rfl,
            Or.inr ⟨rows, Except.error e, fetched, hpr⟩⟩
        next out cache1 fetched hpr =>
          split at h
          · simp only [Option.some.injEq, Prod.mk.injEq] at h
            obtain ⟨-, h2, h3⟩ := h
            subst h2
            subst h3
            exact ⟨rfl, rfl, rfl, _, rfl, rfl,
              Or.inr ⟨rows, Except.ok out, fetched, hpr⟩⟩
          · simp only [Option.some.injEq, Prod.mk.injEq] at h
            obtain ⟨-, h2, h3⟩ := h
            subst h2
            subst h3
            exact ⟨rfl, rfl, rfl, _, rfl, rfl,
              Or.inr ⟨rows, Except.ok out, fetched, hpr⟩⟩

/-- What the discovery phase guarantees: the cache is untouched, the async
discovery request is made exactly when no future is outstanding and the
deadline has passed, a successful request sets the future and advances the
deadline by `DISCOVERY_TIMEOUT` from now, and without a request the
deadline is unchanged. -/
theorem discoveryPhase_shape (env : Runtime) (data : SpatialContextReadyData)
    (deadline now : Nat) (res : Except XrCode (Option Snapshot))
    (data1 : SpatialContextReadyData) (deadline1 : Nat) (issued : Bool)
    (h : discoveryPhase env data deadline now = (res, data1, deadline1, issued)) :
    data1.spatial_entities = data.spatial_entities ∧
    (issued = true ↔ data.discovery_snapshot_future = none ∧ now > deadline) ∧
    (issued = true → env.discovery_async_code = SUCCESS →
      deadline1 = now + DISCOVERY_TIMEOUT ∧
      data1.discovery_snapshot_future = some env.discovery_future) ∧
    (issued = false → deadline1 = deadline) := by
  unfold discoveryPhase at h
  split at h
  next fut hfut =>
    split at h
    next e hchk =>
      simp only [Prod.mk.injEq] at h
      obtain ⟨-, h2, h3, h4⟩ := h
      subst h2; subst h3; subst h4
      exact ⟨rfl, by simp [hfut], by intro hI; simp at hI, fun _ => rfl⟩
    next hchk =>
      split at h
      · simp only [Prod.mk.injEq] at h
        obtain ⟨-, h2, h3, h4⟩ := h
        subst h2; subst h3; subst h4
        exact ⟨rfl, by simp [hfut], by intro hI; simp at hI, fun _ => rfl⟩
      · split at h
        · simp only [Prod.mk.injEq] at h
          obtain ⟨-, h2, h3, h4⟩ := h
          subst h2; subst h3; subst h4
          exact ⟨rfl, by simp [hfut], by intro hI; simp at hI, fun _ => rfl⟩
        · simp only [Prod.mk.injEq] at h
          obtain ⟨-, h2, h3, h4⟩ := h
          subst h2; subst h3; subst h4
          exact ⟨rfl, by simp [hfut], by intro hI; simp at hI, fun _ => rfl⟩
    next hchk =>
      simp only [Prod.mk.injEq] at h
      obtain ⟨-, h2, h3, h4⟩ := h
      subst h2; subst h3; subst h4
      exact ⟨rfl, by simp [hfut], by intro hI; simp at hI, fun _ => rfl⟩
  next hfut =>
    split at h
    next hnow =>
      split at h
      next hcode =>
        simp only [Prod.mk.injEq] at h
        obtain ⟨-, h2, h3, h4⟩ := h
        subst h2; subst h3; subst h4
        exact ⟨rfl, by simp [hfut, hnow],
          fun _ hsucc => absurd hsucc hcode,
          by intro hI; simp at hI⟩
      next hcode =>
        simp only [Prod.mk.injEq] at h
        obtain ⟨-, h2, h3, h4⟩ := h
        subst h2; subst h3; subst h4
        exact ⟨rfl, by simp [hfut, hnow], fun _ _ => ⟨rfl, rfl⟩,
          by intro hI; simp at hI⟩
    next hnow =>
      simp only [Prod.mk.injEq] at h
      obtain ⟨-, h2, h3, h4⟩ := h
      subst h2; subst h3; subst h4
      exact ⟨rfl, by simp [hfut, hnow], by intro hI; simp at hI, fun _ => rfl⟩

/-- Composition of the discovery-phase and post-snapshot guarantees over a
whole `Ready`-state poll. -/
theorem pollReady_shape (env : Runtime) (codes : List String)
    (data : SpatialContextReadyData) (deadline now : Nat)
    (r : Except XrCode (Option (List (String × Pose))))
    (ctx' : QRCodesSpatialContext) (log : PollLog)
    (h : pollReady env codes data deadline now = some (r, ctx', log)) :
    (log.discovery_issued = true ↔
      data.discovery_snapshot_future = none ∧ now > deadline) ∧
    (log.discovery_issued = true → env.discovery_async_code = SUCCESS →
      ctx'.discovery_timeout_deadline = now + DISCOVERY_TIMEOUT ∧
      futureOf ctx' = some env.discovery_future) ∧
    (log.discovery_issued = false →
      ctx'.discovery_timeout_deadline = deadline) ∧
    (cacheOf ctx' = data.spatial_entities ∨
      ∃ rows res f,
        processRows (loopEnvOf env codes) data.spatial_entities rows =
          (res, cacheOf ctx', f)) := by
  unfold pollReady at h
  split at h
  next e data1 deadline1 issued heq =>
    obtain ⟨hse, hiff, hsucc, hnoiss⟩ :=
      discoveryPhase_shape env data deadline now (Except.error e) data1
        deadline1 issued heq
    simp only [Option.some.injEq, Prod.mk.injEq] at h
    obtain ⟨-, h2, h3⟩ := h
    subst h2; subst h3
    refine ⟨hiff, ?_, hnoiss, Or.inl hse⟩
    intro hI hs
    obtain ⟨hdl, hfut⟩ := hsucc hI hs
    exact ⟨hdl, hfut⟩
  next snapOpt data1 deadline1 issued heq =>
    obtain ⟨hse, hiff, hsucc, hnoiss⟩ :=
      discoveryPhase_shape env data deadline now (Except.ok snapOpt) data1
        deadline1 issued heq
    obtain ⟨-, hdl, hiss, d', hready, hfut, hcache⟩ :=
      afterSnapshot_shape env codes data1 deadline1 issued _ r ctx' log h
    constructor
    · rw [hiss]; exact hiff
    constructor
    · intro hI hs
      obtain ⟨hdl2, hfut2⟩ := hsucc (hiss ▸ hI) hs
      refine ⟨hdl ▸ hdl2, ?_⟩
      simp only [futureOf, hready]
      rw [hfut, hfut2]
    constructor
    · intro hI
      rw [hdl]
      exact hnoiss (hiss ▸ hI)
    · simp only [cacheOf, hready]
      rcases hcache with h1 | ⟨rows, res, f, hpr⟩
      · exact Or.inl (h1.trans hse)
      · exact Or.inr ⟨rows, res, f, hse ▸ hpr⟩

/-- In the `Creating` state, `poll` reduces to the future-completion step
of lines 114-159. -/
theorem poll_creating_eq (env : Runtime) (now : Nat)
    (ctx : QRCodesSpatialContext) (future : Future)
    (hst : ctx.context_state = SpatialContextState.creating future) :
    poll env now ctx =
      match env.check_create_future with
      | Except.error e => some (Except.error e, ctx, emptyLog)
      | Except.ok false => some (Except.ok none, ctx, emptyLog)
      | Except.ok true =>
        if env.create_context_complete_code ≠ SUCCESS then
          some (Except.error env.create_context_complete_code, ctx, emptyLog)
        else if env.create_context_future_result ≠ SUCCESS then
          some (Except.error env.create_context_future_result, ctx, emptyLog)
        else
          some (Except.ok none,
            { codes_to_track := ctx.codes_to_track
              context_state := SpatialContextState.ready
                (initialReadyData env.created_context)
              discovery_timeout_deadline := ctx.discovery_timeout_deadline },
            emptyLog) := by
  unfold poll
  rw [hst]

/-- A poll from the `Creating` state either leaves the context untouched or
replaces it by the freshly built `Ready` state with an empty cache. -/
theorem poll_creating_shape (env : Runtime) (now : Nat)
    (ctx : QRCodesSpatialContext) (future : Future)
    (r : Except XrCode (Option (List (String × Pose))))
    (ctx' : QRCodesSpatialContext) (log : PollLog)
    (hst : ctx.context_state = SpatialContextState.creating future)
    (h : poll env now ctx = some (r, ctx', log)) :
    ctx' = ctx ∨ cacheOf ctx' = [] := by
  rw [poll_creating_eq env now ctx future hst] at h
  split at h
  · simp only [Option.some.injEq, Prod.mk.injEq] at h
    exact Or.inl h.2.1.symm
  · simp only [Option.some.injEq, Prod.mk.injEq] at h
    exact Or.inl h.2.1.symm
  · split at h
    · simp only [Option.some.injEq, Prod.mk.injEq] at h
      exact Or.inl h.2.1.symm
    · split at h
      · simp only [Option.some.injEq, Prod.mk.injEq] at h
        exact Or.inl h.2.1.symm
      · simp only [Option.some.injEq, Prod.mk.injEq] at h
        obtain ⟨-, h2, -⟩ := h
        subst h2
        exact Or.inr rfl

theorem poll_ready_eq (env : Runtime) (now : Nat)
    (ctx : QRCodesSpatialContext) (data : SpatialContextReadyData)
    (hst : ctx.context_state = SpatialContextState.ready data) :
    poll env now ctx =
      pollReady env ctx.codes_to_track data ctx.discovery_timeout_deadline now := by
  unfold poll
  rw [hst]

/-- C4: If the context-creation future completes with a failure code, that
poll call returns exactly that error, the context (hence the lifecycle
state) is unchanged, and it is still not `Ready`, so the next poll call
also starts from a non-`Ready` context. -/
theorem creation_failure_not_advanced (env : Runtime) (now : Nat)
    (ctx : QRCodesSpatialContext) (future : Future) (e : XrCode)
    (hst : ctx.context_state = SpatialContextState.creating future)
    (h1 : env.check_create_future = Except.ok true)
    (h2 : env.create_context_complete_code = SUCCESS)
    (h3 : env.create_context_future_result = e)
    (h4 : e ≠ SUCCESS) :
    poll env now ctx = some (Except.error e, ctx, emptyLog) ∧
    ∀ d, ctx.context_state ≠ SpatialContextState.ready d := by
  constructor
  · rw [poll_creating_eq env now ctx future hst, h1]
    simp [h2, h3, h4]
  · intro d hd
    rw [hst] at hd
    exact SpatialContextState.noConfusion hd

/-- C5: Every poll made while the context is still `Creating` returns
either "no data yet" or an error — never a result list — including the
transition frame on which creation completes successfully. -/
theorem creating_polls_never_list (env : Runtime) (now : Nat)
    (ctx : QRCodesSpatialContext) (future : Future)
    (hst : ctx.context_state = SpatialContextState.creating future) :
    ∃ r ctx' log, poll env now ctx = some (r, ctx', log) ∧
      (r = Except.ok none ∨ ∃ e, r = Except.error e) := by
  rw [poll_creating_eq env now ctx future hst]
  cases hc : env.check_create_future with
  | error e =>
    exact ⟨Except.error e, ctx, emptyLog, rfl, Or.inr ⟨e, rfl⟩⟩
  | ok b =>
    cases b with
    | false => exact ⟨Except.ok none, ctx, emptyLog, rfl, Or.inl rfl⟩
    | true =>
      by_cases h1 : env.create_context_complete_code = SUCCESS
      · by_cases h2 : env.create_context_future_result = SUCCESS
        · refine ⟨Except.ok none,
            { codes_to_track := ctx.codes_to_track
              context_state := SpatialContextState.ready
                (initialReadyData env.created_context)
              discovery_timeout_deadline := ctx.discovery_timeout_deadline },
            emptyLog, ?_, Or.inl rfl⟩
          simp [h1, h2]
        · refine ⟨Except.error env.create_context_future_result, ctx, emptyLog,
            ?_, Or.inr ⟨_, rfl⟩⟩
          simp [h1, h2]
      · refine ⟨Except.error env.create_context_complete_code, ctx, emptyLog,
          ?_, Or.inr ⟨_, rfl⟩⟩
        simp [h1]

/-- C6: From a `Ready` context, the async discovery request is made on a
poll exactly when no discovery future is outstanding and the current time
has passed the deadline (in particular, never while one is outstanding,
even past the deadline); a successful request advances the deadline by
`DISCOVERY_TIMEOUT` measured from this poll's time and records the new
outstanding future; a poll that makes no request leaves the deadline
unchanged. -/
theorem discovery_request_throttled (env : Runtime) (now : Nat)
    (ctx : QRCodesSpatialContext) (data : SpatialContextReadyData)
    (r : Except XrCode (Option (List (String × Pose))))
    (ctx' : QRCodesSpatialContext) (log : PollLog)
    (hst : ctx.context_state = SpatialContextState.ready data)
    (h : poll env now ctx = some (r, ctx', log)) :
    (log.discovery_issued = true ↔
      data.discovery_snapshot_future = none ∧
      now > ctx.discovery_timeout_deadline) ∧
    (log.discovery_issued = true → env.discovery_async_code = SUCCESS →
      ctx'.discovery_timeout_deadline = now + DISCOVERY_TIMEOUT ∧
      futureOf ctx' = some env.discovery_future) ∧
    (log.discovery_issued = false →
      ctx'.discovery_timeout_deadline = ctx.discovery_timeout_deadline) := by
  rw [poll_ready_eq env now ctx data hst] at h
  obtain ⟨hiff, hsucc, hnoiss, -⟩ := pollReady_shape env ctx.codes_to_track
    data ctx.discovery_timeout_deadline now r ctx' log h
  exact ⟨hiff, hsucc, hnoiss⟩

/-- C10: Invariants of the entity cache under every non-panicking poll: no
entry is ever removed or overwritten (every prior binding persists
unchanged), and if every cached label passed the allow-set filter before
the poll, the same holds after it — newly inserted labels always pass the
filter. -/
theorem cache_filter_invariant (env : Runtime) (now : Nat)
    (ctx : QRCodesSpatialContext)
    (r : Except XrCode (Option (List (String × Pose))))
    (ctx' : QRCodesSpatialContext) (log : PollLog)
    (h : poll env now ctx = some (r, ctx', log)) :
    (∀ id v, cacheLookup id (cacheOf ctx) = some v →
      cacheLookup id (cacheOf ctx') = some v) ∧
    ((∀ id s hd, cacheLookup id (cacheOf ctx) = some (s, hd) →
        allowOk ctx.codes_to_track s) →
      ∀ id s hd, cacheLookup id (cacheOf ctx') = some (s, hd) →
        allowOk ctx.codes_to_track s) := by
  cases hst : ctx.context_state with
  | creating future =>
    have hempty : cacheOf ctx = [] := by simp [cacheOf, hst]
    rcases poll_creating_shape env now ctx future r ctx' log hst h with
      rfl | hctx'
    · constructor
      · intro id v hv
        exact hv
      · intro hall id s hd hl
        exact hall id s hd hl
    · constructor
      · intro id v hv
        rw [hempty] at hv
        exact Option.noConfusion hv
      · intro hall id s hd hl
        rw [hctx'] at hl
        exact Option.noConfusion hl
  | ready data =>
    have hcache : cacheOf ctx = data.spatial_entities := by
      simp [cacheOf, hst]
    rw [poll_ready_eq env now ctx data hst] at h
    obtain ⟨-, -, -, hevol⟩ := pollReady_shape env ctx.codes_to_track data
      ctx.discovery_timeout_deadline now r ctx' log h
    rcases hevol with heq | ⟨rows, res, f, hpr⟩
    · rw [hcache, heq]
      constructor
      · intro id v hv
        exact hv
      · intro hall id s hd hl
        exact hall id s hd (hcache ▸ hl)
    · constructor
      · intro id v hv
        exact processRows_lookup_mono (loopEnvOf env ctx.codes_to_track) rows
          data.spatial_entities res (cacheOf ctx') f hpr id v (hcache ▸ hv)
      · intro hall id s hd hl
        rcases processRows_new_entry (loopEnvOf env ctx.codes_to_track) rows
          data.spatial_entities res (cacheOf ctx') f hpr id s hd hl with
          hold | hnew
        · exact hall id s hd (hcache ▸ hold)
        · exact hnew.1

/-- A row failing validation is skipped with no effect at all on the rest
of the loop. -/
theorem processRows_skip (env : LoopEnv) (cache : Cache) (r : Row)
    (rest : List Row) (h : markerInvalid r) :
    processRows env cache (r :: rest) = processRows env cache rest := by
  have hrow := processRow_invalid env cache r h
  simp only [processRows, hrow]
  cases hp : processRows env cache rest with
  | mk res p2 =>
    cases p2 with
    | mk c2 f2 => cases res <;> simp

theorem processRows_cons_err (env : LoopEnv) (cache : Cache) (row : Row)
    (rest : List Row) (e : XrCode) (fetched : List EntityId)
    (h1 : processRow env cache row = (Except.error e, fetched)) :
    processRows env cache (row :: rest) = (Except.error e, cache, fetched) := by
  simp only [processRows, h1]

theorem processRows_cons_ok_raw (env : LoopEnv) (cache : Cache) (row : Row)
    (rest : List Row) (outOpt : Option (String × Pose)) (cache1 : Cache)
    (fetched : List EntityId)
    (h1 : processRow env cache row = (Except.ok (outOpt, cache1), fetched)) :
    processRows env cache (row :: rest) =
      (match processRows env cache1 rest with
       | (Except.error e, cache2, fetched2) =>
         (Except.error e, cache2, fetched ++ fetched2)
       | (Except.ok outs, cache2, fetched2) =>
         (Except.ok (match outOpt with | some o => o :: outs | none => outs),
           cache2, fetched ++ fetched2)) := by
  simp only [processRows, h1]
  cases hp : processRows env cache1 rest with
  | mk res p2 =>
    cases p2 with
    | mk c2 f2 => cases res <;> cases outOpt <;> rfl

/-- C7: An entity failing any of the four validation checks (tracking state
not "tracking", capability mismatch, null buffer id, buffer type not
"string") is excluded from the cycle's output and aborts nothing: the loop
behaves exactly as if the entity were absent from the batch. -/
theorem invalid_entity_skipped (env : LoopEnv) (cache : Cache)
    (pre post : List Row) (r : Row) (h : markerInvalid r) :
    processRows env cache (pre ++ r :: post) =
      processRows env cache (pre ++ post) := by
  induction pre generalizing cache with
  | nil => exact processRows_skip env cache r post h
  | cons a t ih =>
    show processRows env cache (a :: (t ++ r :: post)) =
      processRows env cache (a :: (t ++ post))
    cases ha : processRow env cache a with
    | mk res f1 =>
      cases res with
      | error e =>
        rw [processRows_cons_err env cache a (t ++ r :: post) e f1 ha,
          processRows_cons_err env cache a (t ++ post) e f1 ha]
      | ok p =>
        cases p with
        | mk outOpt cache1 =>
          rw [processRows_cons_ok_raw env cache a (t ++ r :: post) outOpt
            cache1 f1 ha,
            processRows_cons_ok_raw env cache a (t ++ post) outOpt
            cache1 f1 ha,
            ih cache1]

/-- C8: Re-running the per-entity loop on unchanged scene data (the same
rows, with pairwise-distinct entity ids) from the cache a successful run
produced yields the same output pairs and leaves the cache unchanged; and
an entity id already cached before a run is never fetched (hence never
re-decoded) by that run. -/
theorem unchanged_scene_idempotent (env : LoopEnv) (rows : List Row)
    (cache : Cache) (out : List (String × Pose)) (cache' : Cache)
    (f : List EntityId) (hnodup : (rows.map Row.entity_id).Nodup)
    (h : processRows env cache rows = (Except.ok out, cache', f)) :
    (∃ f', processRows env cache' rows = (Except.ok out, cache', f')) ∧
    (∀ id v, cacheLookup id cache = some v → id ∉ f) := by
  exact ⟨processRows_stable env rows cache out cache' f hnodup h,
    fun id v hv =>
      processRows_no_fetch_of_cached env rows cache (Except.ok out) cache' f
        h id v hv⟩

theorem readRowsAux_isSome (data : SpatialContextReadyData) (l : List Nat) :
    (readRowsAux data l).isSome = true ↔
      ∀ idx ∈ l, idx < MAX_MARKERS_COUNT := by
  induction l with
  | nil => simp [readRowsAux]
  | cons idx rest ih =>
    simp only [readRowsAux, readRow]
    by_cases hidx : idx < MAX_MARKERS_COUNT
    · rw [if_pos hidx]
      cases hrest : readRowsAux data rest with
      | none =>
        rw [hrest] at ih
        simp only [List.forall_mem_cons]
        simp only [Option.isSome_none] at ih
        simp [hidx, ← ih]
      | some rows =>
        rw [hrest] at ih
        simp only [List.forall_mem_cons]
        simp only [Option.isSome_some] at ih
        simp [hidx, ← ih]
    · rw [if_neg hidx]
      simp only [List.forall_mem_cons]
      simp [hidx]

theorem readRowsAux_length (data : SpatialContextReadyData) (l : List Nat)
    (rows : List Row) (h : readRowsAux data l = some rows) :
    rows.length = l.length := by
  induction l generalizing rows with
  | nil =>
    simp only [readRowsAux, Option.some.injEq] at h
    simp [← h]
  | cons idx rest ih =>
    unfold readRowsAux at h
    split at h
    next row rows2 hrow hrest =>
      simp only [Option.some.injEq] at h
      rw [← h]
      simp [ih rows2 hrest]
    next => exact Option.noConfusion h

theorem range_all_lt (count m : Nat) :
    (∀ idx ∈ List.range count, idx < m) ↔ count ≤ m := by
  constructor
  · intro h
    by_contra hlt
    push_neg at hlt
    exact absurd (h m (List.mem_range.mpr (by omega))) (by omega)
  · intro h idx hidx
    rw [List.mem_range] at hidx
    omega

/-- C9: The per-entity loop reads the four fixed capacity-32 buffers at
every index below the runtime-reported entity count with no clamp: all
those reads are in bounds exactly when the reported count is at most
`MAX_MARKERS_COUNT`, and in that case the loop's output list has at most
`MAX_MARKERS_COUNT` entries. -/
theorem marker_loop_bounds (data : SpatialContextReadyData) (count : Nat) :
    ((readRows data count).isSome = true ↔ count ≤ MAX_MARKERS_COUNT) ∧
    ∀ env cache rows out cache' f, readRows data count = some rows →
      processRows env cache rows = (Except.ok out, cache', f) →
      out.length ≤ MAX_MARKERS_COUNT := by
  constructor
  · rw [readRows, readRowsAux_isSome]
    exact range_all_lt count MAX_MARKERS_COUNT
  · intro env cache rows out cache' f hrows hpr
    have h1 : rows.length = count := by
      rw [readRowsAux_length data (List.range count) rows hrows]
      exact List.length_range count
    have h2 : count ≤ MAX_MARKERS_COUNT := by
      have hs : (readRows data count).isSome = true := by rw [hrows]; rfl
      rw [readRows, readRowsAux_isSome] at hs
      exact (range_all_lt count MAX_MARKERS_COUNT).mp hs
    calc out.length ≤ rows.length := processRows_length env rows cache out cache' f hpr
      _ = count := h1
      _ ≤ MAX_MARKERS_COUNT := h2

/-- C2 (amended): entities whose label is decoded this cycle but fails the
non-empty allow-set filter are not cached — every cache binding surviving
the loop either predates it or carries an allow-set-passing label — but
such entities ARE included in this cycle's output: an output label is only
guaranteed to be a cached or freshly decoded label, not an allow-set
member. -/
theorem allow_filter_cache_only (env : LoopEnv) (rows : List Row)
    (cache : Cache) (out : List (String × Pose)) (cache' : Cache)
    (f : List EntityId)
    (h : processRows env cache rows = (Except.ok out, cache', f)) :
    (∀ id s hd, cacheLookup id cache' = some (s, hd) →
      cacheLookup id cache = some (s, hd) ∨ allowOk env.codes_to_track s) ∧
    (∀ l p, (l, p) ∈ out →
      (∃ id hd, cacheLookup id cache = some (l, hd)) ∨
      ∃ r ∈ rows, (env.get_buffer r.marker.buffer_id).2 = some l) := by
  constructor
  · intro id s hd hl
    rcases processRows_new_entry env rows cache (Except.ok out) cache' f h id
      s hd hl with hold | hnew
    · exact Or.inl hold
    · exact Or.inr hnew.1
  · intro l p hmem
    exact processRows_output_provenance env rows cache out cache' f h l p hmem

/-- An all-success runtime oracle for concrete evaluations: one queried
entity slot (id 42, tracking, QR capability, string buffer 7, pose 3),
update snapshot 5, buffer decoding to "A". -/
def rtOk : Runtime :=
  { check_create_future := Except.ok false
    create_context_complete_code := SUCCESS
    create_context_future_result := SUCCESS
    created_context := 1
    check_discovery_future := Except.ok false
    discovery_complete_code := SUCCESS
    discovery_future_result := SUCCESS
    discovery_snapshot := 4
    discovery_async_code := SUCCESS
    discovery_future := 11
    update_snapshot_code := SUCCESS
    update_snapshot := 5
    query1_code := SUCCESS
    query_count := 0
    query_ids := fun _ => 42
    query_states := fun _ => SpatialEntityTrackingState.tracking
    query2_code := SUCCESS
    query_bounds := fun _ => 3
    query_markers := fun _ =>
      { capability := SPATIAL_CAPABILITY
        buffer_id := 7
        buffer_type := SpatialBufferType.string }
    get_buffer := fun _ => (SUCCESS, some "A")
    entity_from_id := fun _ => (SUCCESS, 9)
    destroy_snapshot_code := SUCCESS }

/-- A `Ready` context with an empty cache, no outstanding discovery future
and deadline 0. -/
def readyCtx (codes : List String) : QRCodesSpatialContext :=
  { codes_to_track := codes
    context_state := SpatialContextState.ready (initialReadyData 1)
    discovery_timeout_deadline := 0 }

/-- A context still waiting on creation future 3. -/
def ctxCreating : QRCodesSpatialContext :=
  { codes_to_track := []
    context_state := SpatialContextState.creating 3
    discovery_timeout_deadline := 0 }

/-- Oracle in which the one queried entity's label payload is invalid
UTF-8. -/
def envC1 : Runtime :=
  { rtOk with query_count := 1, get_buffer := fun _ => (SUCCESS, none) }

/-- C1 (code bug): a poll that obtained a snapshot (the update snapshot, 5)
and then hits a label-decode failure returns the decode error with the
snapshot never destroyed — the early `?`-return skips the
`destroy_spatial_snapshot` call, leaking the snapshot. -/
theorem snapshot_leaked_on_decode_error :
    ∃ ctx', poll envC1 0 (readyCtx []) =
      some (Except.error ERROR_SPATIAL_BUFFER_ID_INVALID_EXT, ctx',
        { obtained_snapshot := some 5
          destroyed_snapshots := []
          discovery_issued := false
          fetched_ids := [42] }) :=
  ⟨_, rfl⟩

/-- Oracle in which `create_spatial_update_snapshot` fails with -17. -/
def envC3 : Runtime := { rtOk with update_snapshot_code := -17 }

/-- C3 (code bug): the return code of `create_spatial_update_snapshot` is
the one runtime-call result `poll` discards: with that call failing (code
-17) and everything else succeeding, `poll` still returns a successful
(empty) result list instead of aborting with the error. -/
theorem update_snapshot_failure_swallowed :
    envC3.update_snapshot_code ≠ SUCCESS ∧
    ∃ ctx', poll envC3 0 (readyCtx []) =
      some (Except.ok (some []), ctx',
        { obtained_snapshot := some 5
          destroyed_snapshots := [5]
          discovery_issued := false
          fetched_ids := [] }) :=
  ⟨by decide, _, rfl⟩

/-- Oracle in which the one queried entity's label decodes to "XYZ999". -/
def envC2 : Runtime :=
  { rtOk with query_count := 1
              get_buffer := fun _ => (SUCCESS, some "XYZ999") }

/-- C2 (counterexample): with allow-set the singleton "ABC123", an entity
whose label decodes to "XYZ999" this cycle is not cached, yet the poll's
returned list contains exactly the pair with label "XYZ999" — the returned
labels are not a subset of the non-empty allow-set, and the
freshly-decoded, filtered-out entity is not excluded from this cycle's
output. -/
theorem filtered_label_still_reported :
    ¬ allowOk (readyCtx ["ABC123"]).codes_to_track "XYZ999" ∧
    ∃ ctx', poll envC2 0 (readyCtx ["ABC123"]) =
        some (Except.ok (some [("XYZ999", 3)]), ctx',
          { obtained_snapshot := some 5
            destroyed_snapshots := [5]
            discovery_issued := false
            fetched_ids := [42] }) ∧
      cacheOf ctx' = [] :=
  ⟨by decide, _, rfl, rfl⟩

/-- Oracle whose creation future is ready and completes with failure -2. -/
def envW4 : Runtime :=
  { rtOk with check_create_future := Except.ok true
              create_context_future_result := -2 }

theorem creation_failure_not_advanced_witness :
    poll envW4 0 ctxCreating = some (Except.error (-2), ctxCreating, emptyLog) ∧
    ∀ d, ctxCreating.context_state ≠ SpatialContextState.ready d :=
  creation_failure_not_advanced envW4 0 ctxCreating 3 (-2) rfl rfl rfl rfl
    (by decide)

theorem creating_polls_never_list_witness :
    ∃ r ctx' log, poll rtOk 0 ctxCreating = some (r, ctx', log) ∧
      (r = Except.ok none ∨ ∃ e, r = Except.error e) :=
  creating_polls_never_list rtOk 0 ctxCreating 3 rfl

def pollW6 : Option (Except XrCode (Option (List (String × Pose))) ×
    QRCodesSpatialContext × PollLog) :=
  poll rtOk 5 (readyCtx [])

def hW6 : pollW6.isSome = true := rfl

def tripW6 : Except XrCode (Option (List (String × Pose))) ×
    QRCodesSpatialContext × PollLog :=
  pollW6.get hW6

theorem discovery_request_throttled_witness :
    (tripW6.2.2.discovery_issued = true ↔
      (initialReadyData 1).discovery_snapshot_future = none ∧
      5 > (readyCtx []).discovery_timeout_deadline) ∧
    (tripW6.2.2.discovery_issued = true → rtOk.discovery_async_code = SUCCESS →
      tripW6.2.1.discovery_timeout_deadline = 5 + DISCOVERY_TIMEOUT ∧
      futureOf tripW6.2.1 = some rtOk.discovery_future) ∧
    (tripW6.2.2.discovery_issued = false →
      tripW6.2.1.discovery_timeout_deadline =
        (readyCtx []).discovery_timeout_deadline) :=
  discovery_request_throttled rtOk 5 (readyCtx []) (initialReadyData 1)
    tripW6.1 tripW6.2.1 tripW6.2.2 rfl (Option.some_get hW6).symm

/-- An entity slot failing validation (tracking state "stopped"). -/
def rowInvalid : Row :=
  { entity_id := 8
    entity_state := SpatialEntityTrackingState.stopped
    marker := { capability := SPATIAL_CAPABILITY
                buffer_id := 7
                buffer_type := SpatialBufferType.string }
    pose := 2 }

theorem invalid_entity_skipped_witness :
    processRows (loopEnvOf rtOk []) [] ([] ++ rowInvalid :: []) =
      processRows (loopEnvOf rtOk []) [] ([] ++ []) :=
  invalid_entity_skipped (loopEnvOf rtOk []) [] [] [] rowInvalid (by decide)

/-- A valid entity slot: id 42, tracking, string buffer 7, pose 3. -/
def rowA : Row :=
  { entity_id := 42
    entity_state := SpatialEntityTrackingState.tracking
    marker := { capability := SPATIAL_CAPABILITY
                buffer_id := 7
                buffer_type := SpatialBufferType.string }
    pose := 3 }

theorem unchanged_scene_idempotent_witness :
    (∃ f', processRows (loopEnvOf rtOk []) [(42, "A", 9)] [rowA] =
      (Except.ok [("A", 3)], [(42, "A", 9)], f')) ∧
    (∀ id v, cacheLookup id ([] : Cache) = some v → id ∉ [42]) :=
  unchanged_scene_idempotent (loopEnvOf rtOk []) [rowA] [] [("A", 3)]
    [(42, "A", 9)] [42] (by decide) rfl

theorem marker_loop_bounds_witness :
    ((readRows (initialReadyData 1) 1).isSome = true ↔
      1 ≤ MAX_MARKERS_COUNT) ∧
    ([] : List (String × Pose)).length ≤ MAX_MARKERS_COUNT :=
  ⟨(marker_loop_bounds (initialReadyData 1) 1).1,
    (marker_loop_bounds (initialReadyData 1) 1).2 (loopEnvOf rtOk []) []
      [{ entity_id := 0
         entity_state := SpatialEntityTrackingState.stopped
         marker := { capability := SPATIAL_CAPABILITY
                     buffer_id := NULL_BUFFER_ID
                     buffer_type := SpatialBufferType.string }
         pose := 0 }]
      [] [] [] rfl rfl⟩

theorem cache_filter_invariant_witness :
    (∀ id v, cacheLookup id (cacheOf ctxCreating) = some v →
      cacheLookup id (cacheOf ctxCreating) = some v) ∧
    ((∀ id s hd, cacheLookup id (cacheOf ctxCreating) = some (s, hd) →
        allowOk ctxCreating.codes_to_track s) →
      ∀ id s hd, cacheLookup id (cacheOf ctxCreating) = some (s, hd) →
        allowOk ctxCreating.codes_to_track s) :=
  cache_filter_invariant rtOk 0 ctxCreating (Except.ok none) ctxCreating
    emptyLog rfl

theorem allow_filter_cache_only_witness :
    (∀ id s hd, cacheLookup id ([] : Cache) = some (s, hd) →
      cacheLookup id ([] : Cache) = some (s, hd) ∨
      allowOk (loopEnvOf envC2 ["ABC123"]).codes_to_track s) ∧
    (∀ l p, (l, p) ∈ [("XYZ999", (3 : Pose))] →
      (∃ id hd, cacheLookup id ([] : Cache) = some (l, hd)) ∨
      ∃ r ∈ [rowA],
        ((loopEnvOf envC2 ["ABC123"]).get_buffer r.marker.buffer_id).2 =
          some l) :=
  allow_filter_cache_only (loopEnvOf envC2 ["ABC123"]) [rowA] []
    [("XYZ999", 3)] [] [42] rfl

end SpatialMarkerTracking
